import Mathlib

/-!
Verification of the deckworthy repository (TypeScript) against its
natural-language specification.

Shallow embedding: every definition below translates the corresponding
source function.  JavaScript numbers are modelled as Nat / Int / ℚ,
`Date.now()` clock values as Nat milliseconds, fallible calls as
`Except String`, and the SQLite tables as lists of row structures.
External collaborators (the HTTP endpoints, the storage engine's
driver) appear as explicit oracle parameters whose semantics are stated
in the doc comments.
-/

namespace Deckworthy

/-! ## String primitives

Models of the JS / SQLite string operations the code uses.  SQLite's
LIKE and LOWER are ASCII-only case folders, hence the ASCII-restricted
`lowerChar`. -/

/-- ASCII case folding (codes 65-90 map to 97-122), the behaviour of
SQLite `LOWER`/`LIKE` and of `String.prototype.toLowerCase` on the ASCII
range the code compares against ("desc", store names). -/
def lowerChar (c : Char) : Char :=
  if 65 ≤ c.toNat ∧ c.toNat ≤ 90 then Char.ofNat (c.toNat + 32) else c

/-- Model of `String.prototype.toLowerCase` (ASCII range). -/
def strToLower (s : String) : String := ⟨s.data.map lowerChar⟩

/-- Contiguous-substring test on character lists. -/
def containsSub (s pat : List Char) : Bool :=
  match s with
  | [] => pat.isEmpty
  | _ :: rest => pat.isPrefixOf s || containsSub rest pat

/-- Model of `String.prototype.includes`. -/
def strIncludes (s pat : String) : Bool := containsSub s.data pat.data

/-- SQLite `x LIKE '%pat%'` (case-insensitive on ASCII). -/
def likeContains (s pat : String) : Bool :=
  containsSub (strToLower s).data (strToLower pat).data

/-- ASCII whitespace, for the model of `String.prototype.trim`. -/
def isSpaceChar (c : Char) : Bool :=
  c.toNat = 32 || c.toNat = 9 || c.toNat = 10 || c.toNat = 13

/-- Model of `String.prototype.trim` (ASCII whitespace suffices for the
comma-separated tier lists it is applied to). -/
def trimChars (l : List Char) : List Char :=
  ((l.dropWhile isSpaceChar).reverse.dropWhile isSpaceChar).reverse

/-- `String.prototype.trim` on strings. -/
def strTrim (s : String) : String := ⟨trimChars s.data⟩

/-- Model of `String.prototype.split(',')` on character lists; the result
is always nonempty (splitting "" gives [""], as in JS). -/
def splitCommaChars : List Char → List (List Char)
  | [] => [[]]
  | c :: cs =>
    match splitCommaChars cs with
    | [] => [[c]]
    | h :: t => if c.toNat = 44 then [] :: h :: t else (c :: h) :: t

/-- `String.prototype.split(',')` on strings. -/
def strSplitComma (s : String) : List String :=
  (splitCommaChars s.data).map (fun l => ⟨l⟩)

/-- JS `a || b` where `a` is an optional string: `undefined` and the empty
string are falsy and fall through to `b`. -/
def jsOrStr (a : Option String) (b : String) : String :=
  match a with
  | none => b
  | some s => if s = "" then b else s

/-- JS `a || null` on an optional string (empty string collapses to null). -/
def jsOrNullStr (a : Option String) : Option String :=
  match a with
  | none => none
  | some s => if s = "" then none else some s

/-- JS `a || b` on an optional number: `undefined` and `0` are falsy. -/
def jsOrNum (a : Option ℚ) (b : ℚ) : ℚ :=
  match a with
  | none => b
  | some x => if x = 0 then b else x

/-- JS `Math.round` on a real argument: round(x) = ⌊x + 1/2⌋ (half up). -/
def jsRound (q : ℚ) : Int := ⌊q + 1 / 2⌋

/-- `Math.ceil(a / b)` for natural inputs with `b > 0` (every caller caps
the divisor into [1,100]; `b = 0` would give `Infinity` in JS and lies
outside all claims). -/
def jsCeilDiv (a b : Nat) : Nat := (a + b - 1) / b

/-! ## src/utils/http.ts — RateLimiter (claim C1)

The limiter state is the `requests` array of admitted timestamps.  The
trim-check-record body of `waitForSlot` runs synchronously on the
single-threaded event loop (no `await` separates the filter from the
`push`), so each pass is one atomic step; a refused caller sleeps and
re-enters as a later step.  A whole execution is therefore a sequence of
passes at non-decreasing `Date.now()` values. -/

structure RateLimiter where
  maxRequests : Nat
  perMilliseconds : Nat
  requests : List Nat
deriving DecidableEq

/-- One atomic pass of `RateLimiter.waitForSlot` at clock value `now`.
Returns the new state and `some now` when the caller is admitted
(`this.requests.push(now)`), `none` when it must sleep and retry.  The
filter keeps timestamps with `now - ts < perMilliseconds`; the wait
branch is taken when the filtered list has reached `maxRequests` AND is
nonempty (`oldestRequest !== undefined` — with an empty list the code
falls through to the push). -/
def waitForSlot (rl : RateLimiter) (now : Nat) : RateLimiter × Option Nat :=
  let requests := rl.requests.filter (fun ts => now - ts < rl.perMilliseconds)
  if requests.length ≥ rl.maxRequests ∧ requests ≠ [] then
    ({ rl with requests := requests }, none)
  else
    ({ rl with requests := requests ++ [now] }, some now)

/-- The sleep the refusal branch schedules:
`waitTime = perMilliseconds - (now - oldestRequest)`. -/
def waitTime (rl : RateLimiter) (now : Nat) : Option Nat :=
  let requests := rl.requests.filter (fun ts => now - ts < rl.perMilliseconds)
  if requests.length ≥ rl.maxRequests then
    match requests.head? with
    | some oldest => some (rl.perMilliseconds - (now - oldest))
    | none => none
  else none

/-- Run a sequence of `waitForSlot` passes at the given clock values;
returns the final state and the admitted timestamps in order.
`execute fn` is `waitForSlot` followed by `fn()`, so admissions of
`execute` are exactly admissions of `waitForSlot`. -/
def runWaitForSlot (rl : RateLimiter) : List Nat → RateLimiter × List Nat
  | [] => (rl, [])
  | t :: ts =>
    let step := waitForSlot rl t
    let rest := runWaitForSlot step.fst ts
    (rest.fst, step.snd.toList ++ rest.snd)

/-- `a` lies in the sliding window `(T - W, T]` of the natural clock. -/
def inWindow (W T a : Nat) : Bool := a ≤ T && T - a < W

/-! ## src/utils/http.ts — fetchJson (claim C2) -/

/-- Outcome of a `fetchJson` call: final result, number of attempts
performed, and the backoff sleeps taken between attempts, in order. -/
structure FetchRun (α : Type) where
  result : Except String α
  attempts : Nat
  delays : List Nat

/-- The retry loop of `fetchJson` (`for (attempt = 0; attempt < retries;
attempt++)`).  `endpoint n` is the outcome of the `n`-th attempt (`.ok` =
2xx response with JSON body, `.error` = thrown failure: non-ok status,
transport error or timeout abort).  `remaining = retries - attempt`
iterations are still allowed; after a failure the loop sleeps
`retryDelay * 2 ^ attempt` unless this was the last allowed attempt
(`attempt < retries - 1`), and once attempts are exhausted it throws
`"Failed after <retries> attempts: <last error>"`. -/
def fetchJsonGo {α : Type} (endpoint : Nat → Except String α)
    (retries retryDelay : Nat) : Nat → Nat → Option String → FetchRun α
  | 0, attempt, lastError =>
    { result := Except.error
        ("Failed after " ++ toString retries ++ " attempts: "
          ++ lastError.getD "Unknown error")
      attempts := attempt
      delays := [] }
  | remaining + 1, attempt, _ =>
    match endpoint attempt with
    | Except.ok v => { result := Except.ok v, attempts := attempt + 1, delays := [] }
    | Except.error e =>
      let rest := fetchJsonGo endpoint retries retryDelay remaining (attempt + 1) (some e)
      if remaining ≠ 0 then
        { rest with delays := retryDelay * 2 ^ attempt :: rest.delays }
      else rest

/-- Model of `fetchJson(url, {retries, retryDelay, timeout})`.  The URL and
the timeout mechanics live inside the per-attempt outcome `endpoint`. -/
def fetchJson {α : Type} (endpoint : Nat → Except String α)
    (retries retryDelay : Nat) : FetchRun α :=
  fetchJsonGo endpoint retries retryDelay retries 0 none

/-! ## Database rows (schema of the DDL init script) -/

structure GameRow where
  steam_app_id : Nat
  name : String
  short_description : Option String
  header_image_url : Option String
  steam_url : Option String
  release_date : Option String
  developers : Option String
  publishers : Option String
  genres : Option String
  tags : Option String
  is_free : Bool
  last_updated : Option String
deriving DecidableEq

structure RatingRow where
  steam_app_id : Nat
  tier : String
  confidence : Option String
  score : Option ℚ
  total_reports : Option Nat
  trending_tier : Option String
  last_updated : Option String
deriving DecidableEq

structure PriceRow where
  steam_app_id : Nat
  store : String
  price_usd : ℚ
  discount_percent : Int
  is_on_sale : Int
  sale_end_date : Option String
  url : Option String
  last_updated : Option String
deriving DecidableEq

structure SyncLogRow where
  source : String
  last_sync_at : String
  status : Option String
  error_message : Option String
  records_updated : Nat
deriving DecidableEq

structure HumbleBundleRow where
  id : Nat
  bundle_name : String
  bundle_url : String
  bundle_type : Option String
  end_date : Option String
  is_active : Bool
  last_updated : Option String
deriving DecidableEq

structure BundleGameRow where
  id : Nat
  bundle_id : Nat
  steam_app_id : Nat
  tier : Option String
deriving DecidableEq

/-- The database: one list per table, in row order. -/
structure Db where
  games : List GameRow
  protondb_ratings : List RatingRow
  current_prices : List PriceRow
  data_sync_log : List SyncLogRow
  humble_bundles : List HumbleBundleRow
  humble_bundle_games : List BundleGameRow
deriving DecidableEq

/-! ## src/db/repositories/games.ts — getGames (claims C3, C4, C5) -/

/-- The destructured parameter object of `getGames` (route-level parsing
has already applied its defaults and caps). -/
structure GamesQueryParams where
  page : Nat
  limit : Nat
  sortBy : String
  sortOrder : String
  protonTier : Option String
  minPrice : Option ℚ
  maxPrice : Option ℚ
  minDiscount : Option Int
  onSale : Option Bool
  search : Option String
deriving DecidableEq

/-- One row of the grouped query: the `g.*` columns plus the joined
rating columns and the per-game aggregates. -/
structure GameWithRating where
  game : GameRow
  proton_tier : Option String
  proton_confidence : Option String
  proton_score : Option ℚ
  min_price : Option ℚ
  max_discount : Option Int
  active_sales : Nat
deriving DecidableEq

structure PaginatedGamesResponse where
  games : List GameWithRating
  total : Nat
  page : Nat
  limit : Nat
  totalPages : Nat
deriving DecidableEq

/-- SQL `MIN` aggregate over the group's `price_usd` values (NULL, i.e.
`none`, on a game with no price rows). -/
def sqlMinQ : List ℚ → Option ℚ
  | [] => none
  | x :: xs => some (xs.foldl (fun a b => if b < a then b else a) x)

/-- SQL `MAX` aggregate over the group's `discount_percent` values. -/
def sqlMaxZ : List Int → Option Int
  | [] => none
  | x :: xs => some (xs.foldl (fun a b => if a < b then b else a) x)

/-- The rating row LEFT JOINed to a game (`steam_app_id` is the rating
table's primary key, so `find?` models the unique match). -/
def ratingFor (db : Db) (id : Nat) : Option RatingRow :=
  db.protondb_ratings.find? (fun r => r.steam_app_id == id)

/-- The `current_prices` rows LEFT JOINed to a game. -/
def pricesFor (db : Db) (id : Nat) : List PriceRow :=
  db.current_prices.filter (fun cp => cp.steam_app_id == id)

/-- The output row of `GROUP BY g.steam_app_id` for game `g`: rating
columns are NULL without a rating row, `MIN(cp.price_usd)` and
`MAX(cp.discount_percent)` are NULL without price rows, and
`COUNT(CASE WHEN cp.is_on_sale = 1 THEN 1 END)` counts the on-sale rows. -/
def aggregateRow (db : Db) (g : GameRow) : GameWithRating :=
  let p := ratingFor db g.steam_app_id
  let cps := pricesFor db g.steam_app_id
  { game := g
    proton_tier := p.map (fun r => r.tier)
    proton_confidence := p.bind (fun r => r.confidence)
    proton_score := p.bind (fun r => r.score)
    min_price := sqlMinQ (cps.map (fun cp => cp.price_usd))
    max_discount := sqlMaxZ (cps.map (fun cp => cp.discount_percent))
    active_sales := cps.countP (fun cp => cp.is_on_sale == 1) }

/-- The WHERE clause: `p.tier IN (tiers)` over the split-and-trimmed
comma list (a NULL tier — no rating row — fails the IN), and
`g.name LIKE '%search%'`. -/
def wherePred (db : Db) (params : GamesQueryParams) (g : GameRow) : Bool :=
  (match params.protonTier with
   | none => true
   | some tiersCsv =>
     match ratingFor db g.steam_app_id with
     | none => false
     | some r => ((strSplitComma tiersCsv).map strTrim).contains r.tier) &&
  (match params.search with
   | none => true
   | some s => likeContains g.name s)

/-- The HAVING clause built at lines 73-90: one conjunct per present
filter; a comparison against a NULL aggregate is not TRUE under SQL
three-valued logic, so it rejects the row.  A non-null `onSale` adds
`COUNT(CASE WHEN cp.is_on_sale = 1 THEN 1 END) > 0`. -/
def havingPred (params : GamesQueryParams) (row : GameWithRating) : Bool :=
  (match params.minPrice with
   | none => true
   | some b => match row.min_price with
     | none => false
     | some m => decide (b ≤ m)) &&
  (match params.maxPrice with
   | none => true
   | some b => match row.min_price with
     | none => false
     | some m => decide (m ≤ b)) &&
  (match params.minDiscount with
   | none => true
   | some b => match row.max_discount with
     | none => false
     | some m => decide (b ≤ m)) &&
  (match params.onSale with
   | none => true
   | some _ => decide (0 < row.active_sales))

/-- The sort-column allow-list of line 98. -/
def validSortColumns : List String :=
  ["name", "release_date", "min_price", "max_discount", "proton_score"]

/-- `const sortColumn = validSortColumns.includes(sortBy) ? sortBy : 'name'`. -/
def sortColumnOf (params : GamesQueryParams) : String :=
  if validSortColumns.contains params.sortBy then params.sortBy else "name"


/-- SQLite ordering on a nullable column: NULLs sort first ascending. -/
def optionLe {α : Type} (le : α → α → Bool) : Option α → Option α → Bool
  | none, _ => true
  | some _, none => false
  | some a, some b => le a b

/-- The ascending comparison of `ORDER BY <column>` for each allow-listed
column (the final `else` arm is the default `name` column). -/
def columnLe (column : String) (a b : GameWithRating) : Bool :=
  if column = "release_date" then
    optionLe (fun x y : String => decide (x ≤ y)) a.game.release_date b.game.release_date
  else if column = "min_price" then
    optionLe (fun x y : ℚ => decide (x ≤ y)) a.min_price b.min_price
  else if column = "max_discount" then
    optionLe (fun x y : Int => decide (x ≤ y)) a.max_discount b.max_discount
  else if column = "proton_score" then
    optionLe (fun x y : ℚ => decide (x ≤ y)) a.proton_score b.proton_score
  else decide (a.game.name ≤ b.game.name)

/-- The row comparison of `ORDER BY sortColumn order`: DESC exactly when
`sortOrder.toLowerCase() === 'desc'`, realised as the flipped ASC order. -/
def sortLe (params : GamesQueryParams) : GameWithRating → GameWithRating → Bool :=
  if strToLower params.sortOrder == "desc" then
    (fun a b => columnLe (sortColumnOf params) b a)
  else columnLe (sortColumnOf params)

/-- Insertion into an already sorted list. -/
def insertSorted {α : Type} (le : α → α → Bool) (x : α) : List α → List α
  | [] => [x]
  | y :: ys => if le x y then x :: y :: ys else y :: insertSorted le x ys

/-- Model of SQL `ORDER BY` with comparison `le` (insertion sort; SQL
leaves the relative order of ties unspecified, and nothing downstream
depends on it). -/
def orderByList {α : Type} (le : α → α → Bool) : List α → List α
  | [] => []
  | x :: xs => insertSorted le x (orderByList le xs)

/-- Model of `GamesRepository.getGames` (src/db/repositories/games.ts
lines 24-118): WHERE filters, GROUP BY with aggregates, HAVING filters,
`total` counted before LIMIT/OFFSET, ORDER BY the allow-listed column
(silent fallback to `name`, direction DESC exactly when
`sortOrder.toLowerCase() === 'desc'`), then LIMIT `limit` OFFSET
`(page - 1) * limit` and `totalPages = Math.ceil(total / limit)`. -/
def getGames (db : Db) (params : GamesQueryParams) : PaginatedGamesResponse :=
  let whereRows := db.games.filter (wherePred db params)
  let grouped := whereRows.map (aggregateRow db)
  let filtered := grouped.filter (havingPred params)
  let total := filtered.length
  let sorted := orderByList (sortLe params) filtered
  let offset := (params.page - 1) * params.limit
  { games := (sorted.drop offset).take params.limit
    total := total
    page := params.page
    limit := params.limit
    totalPages := jsCeilDiv total params.limit }

/-- The HAVING-filtered grouped rows of `getGames`, i.e. the row set whose
cardinality the `SELECT COUNT(*) FROM (...)` pre-pagination query returns. -/
def matchingRows (db : Db) (params : GamesQueryParams) : List GameWithRating :=
  ((db.games.filter (wherePred db params)).map (aggregateRow db)).filter (havingPred params)

/-! ## src/db/repositories/games.ts — upsertGame (claim C8) -/

/-- The repository's `GameInsert` input shape. -/
structure GameInsert where
  steam_app_id : Nat
  name : String
  short_description : Option String
  header_image_url : Option String
  steam_url : Option String
  release_date : Option String
  developers : List String
  publishers : List String
  genres : List String
  tags : List String
  is_free : Bool
deriving DecidableEq

/-- `JSON.stringify` of a string array (escaping of exotic characters
omitted — no claim depends on it). -/
def jsonStringifyList (l : List String) : String :=
  "[" ++ String.intercalate "," (l.map (fun s => "\"" ++ s ++ "\"")) ++ "]"

/-- The row written by `upsertGame`'s statement: the bound parameters of
`stmt.run` (lines 179-191; JS `||` collapses empty strings to the
fallback), with `last_updated` set to the current timestamp — the column
default on insert, the explicit `CURRENT_TIMESTAMP` on update. -/
def boundGameRow (game : GameInsert) (now : String) : GameRow :=
  { steam_app_id := game.steam_app_id
    name := game.name
    short_description := jsOrNullStr game.short_description
    header_image_url := jsOrNullStr game.header_image_url
    steam_url := some (jsOrStr game.steam_url
      ("https://store.steampowered.com/app/" ++ toString game.steam_app_id))
    release_date := jsOrNullStr game.release_date
    developers := some (jsonStringifyList game.developers)
    publishers := some (jsonStringifyList game.publishers)
    genres := some (jsonStringifyList game.genres)
    tags := some (jsonStringifyList game.tags)
    is_free := game.is_free
    last_updated := some now }

/-- Model of `GamesRepository.upsertGame`: SQLite
`INSERT ... ON CONFLICT(steam_app_id) DO UPDATE`.  A conflicting row (the
PRIMARY KEY admits at most one) is overwritten field-by-field with the
bound values; otherwise the new row is appended. -/
def upsertGame (games : List GameRow) (game : GameInsert) (now : String) : List GameRow :=
  if games.any (fun r => r.steam_app_id == game.steam_app_id) then
    games.map (fun r =>
      if r.steam_app_id == game.steam_app_id then boundGameRow game now else r)
  else
    games ++ [boundGameRow game now]

/-! ## src/db/repositories/games.ts — getGameById (claim C9)

The detail query is `SELECT g.*, p.* FROM games g LEFT JOIN
protondb_ratings p ...`.  better-sqlite3 materialises a row as a plain JS
object by assigning the columns left to right, so a duplicated column
name keeps the LAST occurrence: `p.steam_app_id` and `p.last_updated`
overwrite the game's values — with NULLs when the LEFT JOIN found no
rating row. -/

/-- The merged detail object: the `g.*` columns with the two duplicated
names (`steam_app_id`, `last_updated`) carrying the `p.*` values, the
remaining `p.*` columns, and the two follow-up queries' results. -/
structure GameDetailResponse where
  steam_app_id : Option Nat
  name : String
  short_description : Option String
  header_image_url : Option String
  steam_url : Option String
  release_date : Option String
  developers : Option String
  publishers : Option String
  genres : Option String
  tags : Option String
  is_free : Bool
  last_updated : Option String
  tier : Option String
  confidence : Option String
  score : Option ℚ
  total_reports : Option Nat
  trending_tier : Option String
  current_prices : List PriceRow
  humble_bundles : List (HumbleBundleRow × Option String)
deriving DecidableEq

/-- The bundles query of `getGameById`: active bundles containing the
game, each with the membership's `tier` column. -/
def bundlesFor (db : Db) (id : Nat) : List (HumbleBundleRow × Option String) :=
  db.humble_bundle_games.filterMap (fun hbg =>
    if hbg.steam_app_id == id then
      match db.humble_bundles.find? (fun hb => hb.id == hbg.bundle_id) with
      | some hb => if hb.is_active then some (hb, hbg.tier) else none
      | none => none
    else none)

/-- Model of `GamesRepository.getGameById` (lines 123-151).  Returns
`none` exactly when no games row has the id (`if (!game) return null`). -/
def getGameById (db : Db) (steamAppId : Nat) : Option GameDetailResponse :=
  match db.games.find? (fun g => g.steam_app_id == steamAppId) with
  | none => none
  | some g =>
    let p := ratingFor db steamAppId
    some
      { steam_app_id := p.map (fun r => r.steam_app_id)
        name := g.name
        short_description := g.short_description
        header_image_url := g.header_image_url
        steam_url := g.steam_url
        release_date := g.release_date
        developers := g.developers
        publishers := g.publishers
        genres := g.genres
        tags := g.tags
        is_free := g.is_free
        last_updated := p.bind (fun r => r.last_updated)
        tier := p.map (fun r => r.tier)
        confidence := p.bind (fun r => r.confidence)
        score := p.bind (fun r => r.score)
        total_reports := p.bind (fun r => r.total_reports)
        trending_tier := p.bind (fun r => r.trending_tier)
        current_prices := pricesFor db steamAppId
        humble_bundles := bundlesFor db steamAppId }

/-- HTTP outcomes of the `GET /api/games/:steamAppId` handler. -/
inductive ApiResponse (α : Type) where
  | ok (body : α)
  | notFound
deriving DecidableEq

/-- The `GET /api/games/:steamAppId` handler (src/api, games router):
404 when the repository returned null, 200 with the object otherwise. -/
def getGameByIdRoute (db : Db) (steamAppId : Nat) : ApiResponse GameDetailResponse :=
  match getGameById db steamAppId with
  | none => ApiResponse.notFound
  | some game => ApiResponse.ok game

/-! ## src/services/isthereanydeal.ts (claims C7, C10) -/

/-- One element of a `deals` array in the ITAD v3 prices response:
`deal.regular?.amount` (absent when `regular` is), `deal.price.amount`,
`deal.cut` and `deal.shop.name`. -/
structure Deal where
  regularAmount : Option ℚ
  priceAmount : ℚ
  cut : ℚ
  shopName : String
deriving DecidableEq

/-- One element of the v3 prices response array (`id` / `deals` may be
absent, which the code guards against). -/
structure GamePricesEntry where
  id : Option String
  deals : Option (List Deal)
deriving DecidableEq

/-- The internal `Price` record shape. -/
structure Price where
  steam_app_id : Nat
  store : String
  price_usd : ℚ
  discount_percent : Int
  is_on_sale : Int
  sale_end_date : Option String
  url : Option String
deriving DecidableEq

/-- The per-deal record pushed by both `fetchGamePrices` (lines 104-118)
and `fetchMultipleGamePrices` (lines 186-199):
`oldPrice = deal.regular?.amount || deal.price.amount` (JS `||`, so a
0 regular price also falls through), and
`discountPercent = oldPrice > 0 ? Math.round(((oldPrice - newPrice) /
oldPrice) * 100) : 0`. -/
def dealToPrice (steamAppId : Nat) (deal : Deal) : Price :=
  let oldPrice := jsOrNum deal.regularAmount deal.priceAmount
  let newPrice := deal.priceAmount
  { steam_app_id := steamAppId
    store := strToLower deal.shopName
    price_usd := newPrice
    discount_percent :=
      if 0 < oldPrice then jsRound ((oldPrice - newPrice) / oldPrice * 100) else 0
    is_on_sale := if 0 < deal.cut then 1 else 0
    sale_end_date := none
    url := none }

/-- Assoc-list lookup, modelling both the parsed JSON object of the
lookup response and the JS `Map`s keyed by strings. -/
def lookupAssoc {α : Type} (l : List (String × α)) (k : String) : Option α :=
  (l.find? (fun p => p.fst == k)).map Prod.snd

/-- Model of one `lookupGameIds` call.  `resp` is the outcome of the
lookup POST: `.error` is any thrown failure, which the catch block turns
into an empty map; `.ok data` is the parsed body, an object mapping shop
identifiers `app/<id>` to an ITAD UUID or null.  Falsy (null / empty)
UUIDs are skipped. -/
def lookupGameIds (resp : Except String (List (String × Option String)))
    (steamAppIds : List Nat) : List (Nat × String) :=
  match resp with
  | Except.error _ => []
  | Except.ok data =>
    steamAppIds.filterMap (fun appId =>
      match lookupAssoc data ("app/" ++ toString appId) with
      | some (some uuid) => if uuid = "" then none else some (appId, uuid)
      | _ => none)

/-- Fuel-driven chunking, modelling `for (i = 0; i < l.length; i += n)
l.slice(i, i + n)`; the fuel `l.length` suffices because both call sites
use a positive `n` (500 and 200). -/
def chunkGo {α : Type} (n : Nat) : Nat → List α → List (List α)
  | 0, _ => []
  | _, [] => []
  | fuel + 1, l => l.take n :: chunkGo n fuel (l.drop n)

/-- `slice`-based batching of a list into chunks of `n`. -/
def chunkList {α : Type} (n : Nat) (l : List α) : List (List α) :=
  chunkGo n l.length l

/-- The body of the per-batch price processing in
`fetchMultipleGamePrices`: a thrown batch request is caught and skipped
(`.error` contributes nothing), and each returned entry contributes its
deals mapped through `dealToPrice` when its `id` resolves through the
`appIdsByGameId` map. -/
def processPriceBatch (appIdsByGameId : List (String × Nat))
    (resp : Except String (List GamePricesEntry)) : List Price :=
  match resp with
  | Except.error _ => []
  | Except.ok data =>
    data.flatMap (fun gameData =>
      match gameData.id, gameData.deals with
      | some gid, some deals =>
        match lookupAssoc appIdsByGameId gid with
        | some appId => deals.map (dealToPrice appId)
        | none => []
      | _, _ => [])

/-- The id map accumulated by the 500-sized lookup batches of
`fetchMultipleGamePrices`: `lookupOracle b` is the outcome of the `b`-th
lookup POST (a thrown batch is caught and contributes an empty map). -/
def itadIdMap (lookupOracle : Nat → Except String (List (String × Option String)))
    (steamAppIds : List Nat) : List (Nat × String) :=
  (chunkList 500 steamAppIds).enum.flatMap
    (fun p => lookupGameIds (lookupOracle p.fst) p.snd)

/-- The price list accumulated by `fetchMultipleGamePrices`: empty when
the id map is (`if (idMap.size === 0) return []`), otherwise the
concatenation of the 200-sized price batches, each entry resolved
through the inverted `appIdsByGameId` map. -/
def fetchMultipleGamePricesList
    (lookupOracle : Nat → Except String (List (String × Option String)))
    (priceOracle : Nat → Except String (List GamePricesEntry))
    (steamAppIds : List Nat) : List Price :=
  if (itadIdMap lookupOracle steamAppIds).length = 0 then []
  else
    (chunkList 200 ((itadIdMap lookupOracle steamAppIds).map Prod.snd)).enum.flatMap
      (fun pb => processPriceBatch
        ((itadIdMap lookupOracle steamAppIds).map (fun p => (p.snd, p.fst)))
        (priceOracle pb.fst))

/-- Model of `fetchMultipleGamePrices` (lines 130-210).  Throws only when
the API key is missing; every network failure is caught (lookup batches
yield empty maps, price batches are skipped). -/
def fetchMultipleGamePrices (apiKey : Bool)
    (lookupOracle : Nat → Except String (List (String × Option String)))
    (priceOracle : Nat → Except String (List GamePricesEntry))
    (steamAppIds : List Nat) : Except String (List Price) :=
  if apiKey then
    Except.ok (fetchMultipleGamePricesList lookupOracle priceOracle steamAppIds)
  else Except.error "ITAD_API_KEY not configured"

/-- The price list computed by the body of `fetchGamePrices`: single-id
lookup, then one prices POST; every caught failure and every
missing-data guard yields the empty list. -/
def fetchGamePricesList
    (lookupResp : Except String (List (String × Option String)))
    (priceResp : Except String (List GamePricesEntry))
    (steamAppId : Nat) : List Price :=
  match ((lookupGameIds lookupResp [steamAppId]).find?
      (fun p => p.fst == steamAppId)).map Prod.snd with
  | none => []
  | some _ =>
    match priceResp with
    | Except.error _ => []
    | Except.ok data =>
      match data.head? with
      | none => []
      | some gameData =>
        match gameData.deals with
        | none => []
        | some deals => deals.map (dealToPrice steamAppId)

/-- Model of `fetchGamePrices` (lines 69-125): a missing API key throws,
everything else resolves to the computed price list. -/
def fetchGamePrices (apiKey : Bool)
    (lookupResp : Except String (List (String × Option String)))
    (priceResp : Except String (List GamePricesEntry))
    (steamAppId : Nat) : Except String (List Price) :=
  if apiKey then Except.ok (fetchGamePricesList lookupResp priceResp steamAppId)
  else Except.error "ITAD_API_KEY not configured"

/-- The repository-facing sync result. -/
structure SyncResult where
  success : Nat
  failed : Nat
  skipped : Nat
  duration : Nat
deriving DecidableEq

/-- `INSERT INTO data_sync_log ... ON CONFLICT(source) DO UPDATE` as run
at the end of `syncAllPrices`: updates `last_sync_at`, `status` and
`records_updated` of the existing per-source row, or inserts the row. -/
def upsertSyncLog (log : List SyncLogRow) (source now status : String)
    (count : Nat) : List SyncLogRow :=
  if log.any (fun r => r.source == source) then
    log.map (fun r =>
      if r.source == source then
        { r with last_sync_at := now, status := some status, records_updated := count }
      else r)
  else
    log ++ [{ source := source, last_sync_at := now, status := some status,
              error_message := none, records_updated := count }]

/-- The rows returned by `SELECT steam_app_id FROM games` with the CLI
limit applied: JS `if (limit)` treats both null and 0 as "no LIMIT
clause". -/
def syncSelectedGames (db : Db) (limit : Option Nat) : List GameRow :=
  match limit with
  | none => db.games
  | some l => if l = 0 then db.games else db.games.take l

/-- Model of `syncAllPrices` (lines 259-315).  `limit` is the CLI cap;
`storeOk` says whether `pricesRepo.updateCurrentPrices` succeeded — its
failure is caught and merely leaves `success` at 0 (the written price
rows themselves are outside every claim and are not tracked here).  With
zero games the function returns before fetching, storing or logging
anything; otherwise the sync-log row is upserted with status 'success'
unconditionally and the result always carries `failed = 0`. -/
def syncAllPrices (db : Db) (apiKey : Bool)
    (lookupOracle : Nat → Except String (List (String × Option String)))
    (priceOracle : Nat → Except String (List GamePricesEntry))
    (storeOk : Bool) (limit : Option Nat) (now : String) :
    Except String (SyncResult × Db) :=
  if (syncSelectedGames db limit).length = 0 then
    Except.ok ({ success := 0, failed := 0, skipped := 0, duration := 0 }, db)
  else
    match fetchMultipleGamePrices apiKey lookupOracle priceOracle
        ((syncSelectedGames db limit).map (fun g => g.steam_app_id)) with
    | Except.error e => Except.error e
    | Except.ok allPrices =>
      let success := if storeOk then allPrices.length else 0
      Except.ok ({ success := success, failed := 0, skipped := 0, duration := 0 },
        { db with data_sync_log :=
            upsertSyncLog db.data_sync_log "itad" now "success" success })

/-! ## Steam game fetcher — fetchAppDetails (claim C6) -/

/-- The `data` object of one appdetails entry. -/
structure SteamAppData where
  gameType : String
  name : String
  short_description : Option String
  header_image : Option String
  release_date_date : Option String
  developers : Option (List String)
  publishers : Option (List String)
  genreDescriptions : Option (List String)
  is_free : Bool
deriving DecidableEq

/-- The per-id entry `data[steamAppId]` of the appdetails response. -/
structure SteamAppDetailsEntry where
  success : Bool
  data : Option SteamAppData
deriving DecidableEq

/-- The non-error body of `fetchAppDetails`: missing entry, unsuccessful
entry, missing data or a non-`'game'` type give null; otherwise the
mapped `GameInsert` (missing optional fields become null, `|| []` on the
arrays, tags always empty). -/
def parseAppDetails (steamAppId : Nat) (entry : Option SteamAppDetailsEntry) :
    Option GameInsert :=
  match entry with
  | none => none
  | some appData =>
    if appData.success then
      match appData.data with
      | none => none
      | some gameData =>
        if gameData.gameType = "game" then
          some
            { steam_app_id := steamAppId
              name := gameData.name
              short_description := jsOrNullStr gameData.short_description
              header_image_url := jsOrNullStr gameData.header_image
              steam_url := some ("https://store.steampowered.com/app/" ++ toString steamAppId)
              release_date := jsOrNullStr gameData.release_date_date
              developers := gameData.developers.getD []
              publishers := gameData.publishers.getD []
              genres := gameData.genreDescriptions.getD []
              tags := []
              is_free := gameData.is_free }
        else none
    else none

/-- Outcome of a `fetchAppDetails` call: `result = none` means the fuel
ran out while the upstream kept rate-limiting (the recursion would still
be running); `retries` counts the sleep-and-recurse passes taken,
`sleeps` the 60000 ms cooldowns, in order. -/
structure AppDetailsRun where
  result : Option (Option GameInsert)
  retries : Nat
  sleeps : List Nat
deriving DecidableEq

/-- The recursion of `fetchAppDetails` (the tail of the catch block:
`if (err.message.includes('429')) { await sleep(60000); return
fetchAppDetails(steamAppId); }`).  `upstream n` is the outcome of the
`n`-th inner `fetchJson` call (its own 2-attempt retry loop included):
`.ok` = parsed body, `.error msg` = the error it threw.  A non-429 error
is caught and returns null; a 429 error sleeps 60 s and recurses with no
depth bound — the fuel only bounds the model, not the code. -/
def fetchAppDetailsGo (upstream : Nat → Except String (Option SteamAppDetailsEntry))
    (steamAppId : Nat) : Nat → Nat → AppDetailsRun
  | 0, attempt => { result := none, retries := attempt, sleeps := [] }
  | fuel + 1, attempt =>
    match upstream attempt with
    | Except.ok entry =>
      { result := some (parseAppDetails steamAppId entry), retries := attempt, sleeps := [] }
    | Except.error msg =>
      if strIncludes msg "429" then
        let rest := fetchAppDetailsGo upstream steamAppId fuel (attempt + 1)
        { rest with sleeps := 60000 :: rest.sleeps }
      else
        { result := some none, retries := attempt, sleeps := [] }

/-- Model of `fetchAppDetails` run with the given fuel bound. -/
def fetchAppDetails (upstream : Nat → Except String (Option SteamAppDetailsEntry))
    (steamAppId fuel : Nat) : AppDetailsRun :=
  fetchAppDetailsGo upstream steamAppId fuel 0

/-! ## Concrete fixtures used by the witnesses -/

/-- A games row with only the claim-relevant fields populated. -/
def mkGameRow (id : Nat) (nm : String) : GameRow :=
  { steam_app_id := id, name := nm, short_description := none,
    header_image_url := none, steam_url := none, release_date := none,
    developers := none, publishers := none, genres := none, tags := none,
    is_free := false, last_updated := none }

/-- A current_prices row with the claim-relevant fields. -/
def mkPriceRow (id : Nat) (st : String) (price : ℚ) (disc : Int) (sale : Int) : PriceRow :=
  { steam_app_id := id, store := st, price_usd := price,
    discount_percent := disc, is_on_sale := sale, sale_end_date := none,
    url := none, last_updated := none }

/-- Query parameters with every filter off (route defaults). -/
def defaultParams : GamesQueryParams :=
  { page := 1, limit := 50, sortBy := "name", sortOrder := "asc",
    protonTier := none, minPrice := none, maxPrice := none,
    minDiscount := none, onSale := none, search := none }

def exDbC3 : Db :=
  { games := [mkGameRow 1 "Alpha"], protondb_ratings := [],
    current_prices := [mkPriceRow 1 "steam" 60 0 0], data_sync_log := [],
    humble_bundles := [], humble_bundle_games := [] }

def exParamsC3 : GamesQueryParams := { defaultParams with minPrice := some 50 }

def exDbC4 : Db :=
  { games := [mkGameRow 1 "Alpha"], protondb_ratings := [],
    current_prices := [], data_sync_log := [],
    humble_bundles := [], humble_bundle_games := [] }

def exParamsC4 : GamesQueryParams := { defaultParams with page := 5, limit := 2 }

def exDbC5 : Db :=
  { games := [mkGameRow 1 "Alpha"], protondb_ratings := [],
    current_prices := [], data_sync_log := [],
    humble_bundles := [], humble_bundle_games := [] }

def exParamsC5junk : GamesQueryParams := { defaultParams with sortBy := "junk" }

/-- The discount formula as the specification words it: derived as
`round((old - new) / old * 100)`, guarding against division by zero
(0% when the old price is non-positive).  Compared against the code's
`dealToPrice` in claim C7. -/
def discountPercentSpec (oldPrice newPrice : ℚ) : Int :=
  if 0 < oldPrice then jsRound ((oldPrice - newPrice) / oldPrice * 100) else 0

def exDealC7 : Deal :=
  { regularAmount := some 10, priceAmount := 5, cut := 50, shopName := "GOG" }

def exInsertA : GameInsert :=
  { steam_app_id := 1, name := "Alpha", short_description := none,
    header_image_url := none, steam_url := none, release_date := none,
    developers := [], publishers := [], genres := [], tags := [],
    is_free := false }

def exInsertB : GameInsert := { exInsertA with name := "Beta" }

def exDbC9 : Db :=
  { games := [mkGameRow 7 "Gamma"], protondb_ratings := [],
    current_prices := [], data_sync_log := [],
    humble_bundles := [], humble_bundle_games := [] }

/-- An upstream that rate-limits the first two calls then answers. -/
def ex429upstream : Nat → Except String (Option SteamAppDetailsEntry) :=
  fun n => if n < 2 then Except.error "HTTP 429: Too Many Requests" else Except.ok none

def exDbC10empty : Db :=
  { games := [], protondb_ratings := [], current_prices := [],
    data_sync_log := [], humble_bundles := [], humble_bundle_games := [] }

def exDbC10one : Db :=
  { games := [mkGameRow 1 "Alpha"], protondb_ratings := [],
    current_prices := [], data_sync_log := [],
    humble_bundles := [], humble_bundle_games := [] }

/-- Oracles on which every upstream request fails. -/
def failingLookupOracle : Nat → Except String (List (String × Option String)) :=
  fun _ => Except.error "network down"

def failingPriceOracle : Nat → Except String (List GamePricesEntry) :=
  fun _ => Except.error "network down" 

/-! ## Theorems

### C1 — sliding-window rate limiter invariant -/

/-- The aliveness test `now - a < W` is antitone in the step time: a
timestamp alive at a later clock was alive at any earlier one. -/
theorem alive_mono {W tcur t a : Nat} (h : tcur ≤ t)
    (ha : decide (t - a < W) = true) : decide (tcur - a < W) = true := by
  simp only [decide_eq_true_eq] at ha ⊢
  exact lt_of_le_of_lt (Nat.sub_le_sub_right h a) ha

/-- If every admitted timestamp alive at clock `tcur` survives in the
request list, then after trimming at a later clock `t` every admitted
timestamp alive at `t` still survives. -/
theorem filter_alive_sublist {W tcur t : Nat} {A requests : List Nat}
    (h : tcur ≤ t)
    (hA : (A.filter (fun a => decide (tcur - a < W))).Sublist requests) :
    (A.filter (fun a => decide (t - a < W))).Sublist
      (requests.filter (fun a => decide (t - a < W))) := by
  have h1 : A.filter (fun a => decide (t - a < W)) =
      A.filter (fun a => decide (t - a < W) && decide (tcur - a < W)) := by
    refine List.filter_congr ?_
    intro a _
    cases hta : decide (t - a < W) with
    | false => simp
    | true => simp [alive_mono h hta]
  rw [h1, ← List.filter_filter]
  exact hA.filter _

/-- Invariant of the `waitForSlot` pass sequence: if every admitted
timestamp alive at the current clock is still in the request list and
every sliding window already holds at most `maxRequests` admissions,
then every sliding window over the admissions of the whole remaining
run still holds at most `maxRequests`. -/
theorem runWaitForSlot_invariant (N W : Nat) (hN : 0 < N) (times : List Nat) :
    ∀ (rl : RateLimiter) (A : List Nat) (tcur : Nat),
      rl.maxRequests = N → rl.perMilliseconds = W →
      List.Chain' (· ≤ ·) (tcur :: times) →
      (A.filter (fun a => decide (tcur - a < W))).Sublist rl.requests →
      (∀ T, (A.filter (inWindow W T)).length ≤ N) →
      ∀ T, ((A ++ (runWaitForSlot rl times).snd).filter (inWindow W T)).length ≤ N := by
  induction times with
  | nil =>
    intro rl A tcur _ _ _ _ hwin T
    simpa [runWaitForSlot] using hwin T
  | cons t ts ih =>
    intro rl A tcur hmax hper hchain hsub hwin T
    obtain ⟨mx, per, reqs⟩ := rl
    simp only at hmax hper hsub
    have hmax2 : N = mx := hmax.symm
    have hper2 : W = per := hper.symm
    subst hmax2 hper2
    have htcur : tcur ≤ t := by
      have h1 := (List.chain'_cons'.mp hchain).1 t
      simpa using h1
    have hchain' : List.Chain' (· ≤ ·) (t :: ts) := (List.chain'_cons'.mp hchain).2
    have hsub' : (A.filter (fun a => decide (t - a < W))).Sublist
        (reqs.filter (fun a => decide (t - a < W))) :=
      filter_alive_sublist htcur hsub
    simp only [runWaitForSlot, waitForSlot]
    by_cases hcond :
      (reqs.filter (fun a => decide (t - a < W))).length ≥ N ∧
        reqs.filter (fun a => decide (t - a < W)) ≠ []
    · -- refusal branch: state trimmed, nothing admitted
      rw [if_pos hcond]
      simp only [Option.toList_none, List.nil_append]
      exact ih ⟨N, W, reqs.filter (fun a => decide (t - a < W))⟩ A t rfl rfl
        hchain' hsub' hwin T
    · -- admission branch: `t` is recorded
      rw [if_neg hcond]
      simp only [Option.toList_some]
      rw [← List.append_assoc]
      have hsub2 : ((A ++ [t]).filter (fun a => decide (t - a < W))).Sublist
          (reqs.filter (fun a => decide (t - a < W)) ++ [t]) := by
        rw [List.filter_append]
        exact hsub'.append (List.filter_sublist _)
      have hwin2 : ∀ T', ((A ++ [t]).filter (inWindow W T')).length ≤ N := by
        intro T'
        rw [List.filter_append, List.length_append]
        by_cases hT : inWindow W T' t = true
        · have hsingle : (([t] : List Nat).filter (inWindow W T')).length = 1 := by
            simp [hT]
          rw [hsingle]
          have hTle : t ≤ T' ∧ T' - t < W := by
            simpa [inWindow, decide_eq_true_eq] using hT
          have hmono2 : (A.filter (inWindow W T')).length ≤
              (A.filter (fun a => decide (t - a < W))).length := by
            refine List.Sublist.length_le (List.monotone_filter_right A ?_)
            intro a ha
            have ha' : a ≤ T' ∧ T' - a < W := by
              simpa [inWindow, decide_eq_true_eq] using ha
            simp only [decide_eq_true_eq]
            exact lt_of_le_of_lt (Nat.sub_le_sub_right hTle.1 a) ha'.2
          have hlen : (A.filter (fun a => decide (t - a < W))).length ≤
              (reqs.filter (fun a => decide (t - a < W))).length :=
            hsub'.length_le
          rcases not_and_or.mp hcond with hlt | hnil
          · have hltN : (reqs.filter (fun a => decide (t - a < W))).length < N := by
              omega
            omega
          · have hemp : reqs.filter (fun a => decide (t - a < W)) = [] := by
              push_neg at hnil
              exact hnil
            rw [hemp] at hlen
            simp only [List.length_nil, Nat.le_zero] at hlen
            omega
        · have hsingle : (([t] : List Nat).filter (inWindow W T')).length = 0 := by
            simp only [Bool.not_eq_true] at hT
            simp [hT]
          rw [hsingle]
          simpa using hwin T'
      exact ih ⟨N, W, reqs.filter (fun a => decide (t - a < W)) ++ [t]⟩
        (A ++ [t]) t rfl rfl hchain' hsub2 hwin2 T

/-- C1: for a `RateLimiter` with capacity `N = maxRequests` and window
`W = perMilliseconds` and any sequence of completed `waitForSlot` /
`execute` passes at non-decreasing clock values, the number of admitted
timestamps lying in any sliding window `(T - W, T]` is at most `N`. -/
theorem rateLimiter_sliding_window (N W : Nat) (times : List Nat)
    (hN : 0 < N) (hmono : List.Chain' (· ≤ ·) times) (T : Nat) :
    (((runWaitForSlot ⟨N, W, []⟩ times).snd.filter (inWindow W T)).length ≤ N) := by
  have hchain : List.Chain' (· ≤ ·) (0 :: times) :=
    List.chain'_cons'.mpr ⟨fun y _ => Nat.zero_le y, hmono⟩
  have := runWaitForSlot_invariant N W hN times ⟨N, W, []⟩ [] 0 rfl rfl hchain
    (by simp) (by simp [hN.le]) T
  simpa using this

/-- C1 witness: the 2-per-1000 ms limiter hit by 4 simultaneous `execute`
calls at clock 0 admits exactly the first two; each refused caller's
scheduled sleep is 1000 ms, and the two retries at clock 1000 are both
admitted — so the other two calls complete only after 1000 ms elapsed.
The window bound is instantiated at the window ending at clock 999. -/
theorem rateLimiter_sliding_window_witness :
    (0 < 2 ∧ List.Chain' (· ≤ ·) [0, 0, 0, 0, 1000, 1000] ∧
      (((runWaitForSlot ⟨2, 1000, []⟩ [0, 0, 0, 0, 1000, 1000]).snd.filter
        (inWindow 1000 999)).length ≤ 2)) ∧
    (runWaitForSlot ⟨2, 1000, []⟩ [0, 0, 0, 0]).snd = [0, 0] ∧
    waitTime ⟨2, 1000, [0, 0]⟩ 0 = some 1000 ∧
    (runWaitForSlot ⟨2, 1000, []⟩ [0, 0, 0, 0, 1000, 1000]).snd = [0, 0, 1000, 1000] := by
  have hchain : List.Chain' (· ≤ ·) [0, 0, 0, 0, 1000, 1000] := by
    simp [List.chain'_cons]
  exact ⟨⟨by decide, hchain,
    rateLimiter_sliding_window 2 1000 [0, 0, 0, 0, 1000, 1000] (by decide) hchain 999⟩,
    by decide, by decide, by decide⟩

/-! ### C2 — fetchJson retry contract -/

/-- One-step unfolding of the retry loop. -/
theorem fetchJsonGo_succ {α : Type} (endpoint : Nat → Except String α)
    (retries retryDelay remaining attempt : Nat) (lastError : Option String) :
    fetchJsonGo endpoint retries retryDelay (remaining + 1) attempt lastError =
      match endpoint attempt with
      | Except.ok v => { result := Except.ok v, attempts := attempt + 1, delays := [] }
      | Except.error e =>
        let rest := fetchJsonGo endpoint retries retryDelay remaining (attempt + 1) (some e)
        if remaining ≠ 0 then
          { rest with delays := retryDelay * 2 ^ attempt :: rest.delays }
        else rest := rfl

/-- The loop performs at most `remaining` further attempts. -/
theorem fetchJsonGo_attempts_le {α : Type} (endpoint : Nat → Except String α)
    (retries retryDelay : Nat) :
    ∀ (remaining attempt : Nat) (lastError : Option String),
      (fetchJsonGo endpoint retries retryDelay remaining attempt lastError).attempts ≤
        attempt + remaining := by
  intro remaining
  induction remaining with
  | zero =>
    intro attempt lastError
    simp [fetchJsonGo]
  | succ r ihr =>
    intro attempt lastError
    rw [fetchJsonGo_succ]
    cases h : endpoint attempt with
    | ok v => simp
    | error e =>
      have hrec := ihr (attempt + 1) (some e)
      simp only
      split
      · simpa using by omega
      · simpa using by omega

/-- Shifting the backoff-delay schedule by one attempt. -/
theorem delays_range_shift (d attempt k : Nat) :
    d * 2 ^ attempt :: (List.range k).map (fun i => d * 2 ^ (attempt + 1 + i)) =
      (List.range (k + 1)).map (fun i => d * 2 ^ (attempt + i)) := by
  rw [List.range_succ_eq_map, List.map_cons, List.map_map]
  refine congrArg₂ List.cons (by rw [Nat.add_zero]) ?_
  refine List.map_congr_left fun a _ => ?_
  simp only [Function.comp_apply]
  rw [show attempt + 1 + a = attempt + (a + 1) from by omega]

/-- If the first `k` attempts fail and attempt `k` succeeds within the
budget, the loop returns the success after exactly `k + 1` attempts,
having slept `retryDelay * 2 ^ i` after each failed attempt `i`. -/
theorem fetchJsonGo_success {α : Type} (endpoint : Nat → Except String α)
    (retries retryDelay : Nat) (v : α) :
    ∀ (k remaining attempt : Nat) (lastError : Option String),
      k < remaining →
      (∀ j, j < k → ∃ e, endpoint (attempt + j) = Except.error e) →
      endpoint (attempt + k) = Except.ok v →
      fetchJsonGo endpoint retries retryDelay remaining attempt lastError =
        { result := Except.ok v, attempts := attempt + k + 1,
          delays := (List.range k).map (fun i => retryDelay * 2 ^ (attempt + i)) } := by
  intro k
  induction k with
  | zero =>
    intro remaining attempt lastError hk _ hok
    obtain ⟨r, rfl⟩ : ∃ r, remaining = r + 1 := ⟨remaining - 1, by omega⟩
    have hok' : endpoint attempt = Except.ok v := by simpa using hok
    rw [fetchJsonGo_succ]
    simp [hok']
  | succ k ihk =>
    intro remaining attempt lastError hk hfail hok
    obtain ⟨r, rfl⟩ : ∃ r, remaining = r + 1 := ⟨remaining - 1, by omega⟩
    obtain ⟨e0, he0⟩ := hfail 0 (by omega)
    have he0' : endpoint attempt = Except.error e0 := by simpa using he0
    have hrec := ihk r (attempt + 1) (some e0) (by omega)
      (fun j hj => by
        obtain ⟨e', h⟩ := hfail (j + 1) (by omega)
        exact ⟨e', by rw [show attempt + 1 + j = attempt + (j + 1) from by omega]; exact h⟩)
      (by rw [show attempt + 1 + k = attempt + (k + 1) from by omega]; exact hok)
    rw [fetchJsonGo_succ]
    simp only [he0']
    rw [hrec, if_pos (by omega : r ≠ 0)]
    simp only [FetchRun.mk.injEq]
    refine ⟨trivial, by omega, ?_⟩
    exact delays_range_shift retryDelay attempt k

/-- If all `r + 1` allowed attempts fail, the loop throws the
"Failed after" error carrying the budget and the last failure message,
after exactly `r + 1` attempts and `r` backoff sleeps. -/
theorem fetchJsonGo_failure {α : Type} (endpoint : Nat → Except String α)
    (retries retryDelay : Nat) (e : String) :
    ∀ (r attempt : Nat) (lastError : Option String),
      (∀ j, j < r + 1 → ∃ e', endpoint (attempt + j) = Except.error e') →
      endpoint (attempt + r) = Except.error e →
      fetchJsonGo endpoint retries retryDelay (r + 1) attempt lastError =
        { result := Except.error
            ("Failed after " ++ toString retries ++ " attempts: " ++ e)
          attempts := attempt + r + 1
          delays := (List.range r).map (fun i => retryDelay * 2 ^ (attempt + i)) } := by
  intro r
  induction r with
  | zero =>
    intro attempt lastError _ hlast
    have he : endpoint attempt = Except.error e := by simpa using hlast
    rw [fetchJsonGo_succ]
    simp [he, fetchJsonGo]
  | succ r ihr =>
    intro attempt lastError hfail hlast
    obtain ⟨e0, he0⟩ := hfail 0 (by omega)
    have he0' : endpoint attempt = Except.error e0 := by simpa using he0
    have hrec := ihr (attempt + 1) (some e0)
      (fun j hj => by
        obtain ⟨e', h⟩ := hfail (j + 1) (by omega)
        exact ⟨e', by rw [show attempt + 1 + j = attempt + (j + 1) from by omega]; exact h⟩)
      (by rw [show attempt + 1 + r = attempt + (r + 1) from by omega]; exact hlast)
    rw [fetchJsonGo_succ]
    simp only [he0']
    rw [hrec, if_pos (by omega : r + 1 ≠ 0)]
    simp only [FetchRun.mk.injEq]
    refine ⟨trivial, by omega, ?_⟩
    exact delays_range_shift retryDelay attempt r

/-- C2: `fetchJson` performs at most `retries` attempts in total; it
returns the first successful attempt's body after exactly `k + 1`
attempts when the first `k` fail, sleeping `retryDelay * 2 ^ i` after
failed attempt `i` (zero-based); and when all `retries` attempts fail it
throws an error carrying the attempt count and the last underlying
error's message. -/
theorem fetchJson_retry_contract {α : Type} (endpoint : Nat → Except String α)
    (retries retryDelay : Nat) :
    ((fetchJson endpoint retries retryDelay).attempts ≤ retries) ∧
    (∀ k v, k < retries →
      (∀ j, j < k → ∃ e, endpoint j = Except.error e) →
      endpoint k = Except.ok v →
      fetchJson endpoint retries retryDelay =
        { result := Except.ok v, attempts := k + 1,
          delays := (List.range k).map (fun i => retryDelay * 2 ^ i) }) ∧
    (∀ e, 0 < retries →
      (∀ j, j < retries → ∃ e', endpoint j = Except.error e') →
      endpoint (retries - 1) = Except.error e →
      fetchJson endpoint retries retryDelay =
        { result := Except.error
            ("Failed after " ++ toString retries ++ " attempts: " ++ e)
          attempts := retries
          delays := (List.range (retries - 1)).map (fun i => retryDelay * 2 ^ i) }) := by
  refine ⟨?_, ?_, ?_⟩
  · simpa using fetchJsonGo_attempts_le endpoint retries retryDelay retries 0 none
  · intro k v hk hfail hok
    have h := fetchJsonGo_success endpoint retries retryDelay v k retries 0 none hk
      (fun j hj => by simpa using hfail j hj) (by simpa using hok)
    rw [fetchJson, h]
    simp
  · intro e hpos hfail hlast
    obtain ⟨r, rfl⟩ : ∃ r, retries = r + 1 := ⟨retries - 1, by omega⟩
    have h := fetchJsonGo_failure endpoint (r + 1) retryDelay e r 0 none
      (fun j hj => by simpa using hfail j hj) (by simpa using hlast)
    rw [fetchJson, h]
    simp

/-- C2 witness: against an endpoint that fails twice then succeeds,
`fetchJson` with `retries = 3` returns the success, was invoked exactly
3 times, and slept 1000 then 2000 ms between the attempts. -/
theorem fetchJson_retry_contract_witness :
    fetchJson (fun n => if n < 2 then Except.error "HTTP 500: oops" else Except.ok (42 : Nat))
        3 1000 =
      { result := Except.ok 42, attempts := 3, delays := [1000, 2000] } := by
  have h := (fetchJson_retry_contract
      (fun n => if n < 2 then Except.error "HTTP 500: oops" else Except.ok (42 : Nat))
      3 1000).2.1 2 42 (by decide)
    (fun j hj => ⟨"HTTP 500: oops", if_pos hj⟩)
    (if_neg (by decide))
  rw [h]
  simp [FetchRun.mk.injEq]
  decide

/-! ### Sorting infrastructure for the ORDER BY model -/

/-- Membership in an insertion. -/
theorem mem_insertSorted {α : Type} (le : α → α → Bool) (x : α) :
    ∀ (l : List α) (a : α), a ∈ insertSorted le x l ↔ a = x ∨ a ∈ l := by
  intro l
  induction l with
  | nil => intro a; simp [insertSorted]
  | cons y ys ih =>
    intro a
    simp only [insertSorted]
    split
    · simp [List.mem_cons]
    · simp only [List.mem_cons, ih a]
      tauto

/-- Insertion is a permutation of consing. -/
theorem insertSorted_perm {α : Type} (le : α → α → Bool) (x : α) :
    ∀ l : List α, (insertSorted le x l).Perm (x :: l) := by
  intro l
  induction l with
  | nil => simp [insertSorted]
  | cons y ys ih =>
    simp only [insertSorted]
    split
    · exact List.Perm.refl _
    · exact (ih.cons y).trans (List.Perm.swap x y ys)

/-- The ORDER BY model permutes its input. -/
theorem orderByList_perm {α : Type} (le : α → α → Bool) :
    ∀ l : List α, (orderByList le l).Perm l := by
  intro l
  induction l with
  | nil => simp [orderByList]
  | cons x xs ih =>
    exact (insertSorted_perm le x (orderByList le xs)).trans (ih.cons x)

/-- Insertion preserves sortedness for a total transitive comparison. -/
theorem insertSorted_pairwise {α : Type} {le : α → α → Bool}
    (htrans : ∀ a b c, le a b = true → le b c = true → le a c = true)
    (htot : ∀ a b, le a b = true ∨ le b a = true) (x : α) :
    ∀ l : List α, List.Pairwise (fun a b => le a b = true) l →
      List.Pairwise (fun a b => le a b = true) (insertSorted le x l) := by
  intro l
  induction l with
  | nil => intro _; simp [insertSorted]
  | cons y ys ih =>
    intro hp
    obtain ⟨hy, hys⟩ := List.pairwise_cons.mp hp
    simp only [insertSorted]
    by_cases hxy : le x y = true
    · rw [if_pos hxy]
      refine List.pairwise_cons.mpr ⟨?_, hp⟩
      intro b hb
      rcases List.mem_cons.mp hb with rfl | hb'
      · exact hxy
      · exact htrans x y b hxy (hy b hb')
    · rw [if_neg hxy]
      refine List.pairwise_cons.mpr ⟨?_, ih hys⟩
      intro b hb
      rcases (mem_insertSorted le x ys b).mp hb with rfl | hb'
      · rcases htot b y with h | h
        · exact absurd h hxy
        · exact h
      · exact hy b hb'

/-- The ORDER BY model sorts, for a total transitive comparison. -/
theorem orderByList_pairwise {α : Type} {le : α → α → Bool}
    (htrans : ∀ a b c, le a b = true → le b c = true → le a c = true)
    (htot : ∀ a b, le a b = true ∨ le b a = true) :
    ∀ l : List α, List.Pairwise (fun a b => le a b = true) (orderByList le l) := by
  intro l
  induction l with
  | nil => simp [orderByList]
  | cons x xs ih => exact insertSorted_pairwise htrans htot x _ ih

/-! ### Dissecting getGames results -/

/-- The games page of `getGames`, written through `matchingRows`. -/
theorem getGames_games_eq (db : Db) (params : GamesQueryParams) :
    (getGames db params).games =
      ((orderByList (sortLe params)
        (matchingRows db params)).drop ((params.page - 1) * params.limit)).take
        params.limit := rfl

/-- The `total` field counts the pre-pagination filtered rows. -/
theorem getGames_total_eq (db : Db) (params : GamesQueryParams) :
    (getGames db params).total = (matchingRows db params).length := rfl

/-- The `totalPages` field. -/
theorem getGames_totalPages_eq (db : Db) (params : GamesQueryParams) :
    (getGames db params).totalPages =
      jsCeilDiv (matchingRows db params).length params.limit := rfl

/-- Every row of a returned page survived the HAVING filter and is the
aggregate row of some WHERE-matching game of the table. -/
theorem mem_getGames_games {db : Db} {params : GamesQueryParams}
    {row : GameWithRating} (hrow : row ∈ (getGames db params).games) :
    havingPred params row = true ∧
      ∃ g, g ∈ db.games ∧ wherePred db params g = true ∧ row = aggregateRow db g := by
  rw [getGames_games_eq] at hrow
  have h1 : row ∈ matchingRows db params :=
    ((orderByList_perm _ (matchingRows db params)).mem_iff).mp
      (List.mem_of_mem_drop (List.take_subset _ _ hrow))
  obtain ⟨h2, h3⟩ := List.mem_filter.mp h1
  obtain ⟨g, hg, rfl⟩ := List.mem_map.mp h2
  obtain ⟨hgmem, hgpred⟩ := List.mem_filter.mp hg
  exact ⟨h3, g, hgmem, hgpred, rfl⟩

/-- Projection of the aggregate row: the game columns. -/
theorem aggregateRow_game (db : Db) (g : GameRow) : (aggregateRow db g).game = g := rfl

/-- Projection of the aggregate row: `MIN(cp.price_usd)`. -/
theorem aggregateRow_min_price (db : Db) (g : GameRow) :
    (aggregateRow db g).min_price =
      sqlMinQ ((pricesFor db g.steam_app_id).map (fun cp => cp.price_usd)) := rfl

/-- Projection of the aggregate row: `MAX(cp.discount_percent)`. -/
theorem aggregateRow_max_discount (db : Db) (g : GameRow) :
    (aggregateRow db g).max_discount =
      sqlMaxZ ((pricesFor db g.steam_app_id).map (fun cp => cp.discount_percent)) := rfl

/-- C3: for every database state, a `getGames` result page never contains
a game whose minimum store price is below a present `minPrice` bound, and
never contains a game with zero `current_prices` rows when any of the
`minPrice` / `maxPrice` / `minDiscount` filters is present (the NULL
aggregate fails the HAVING comparison). -/
theorem getGames_price_filters (db : Db) (params : GamesQueryParams)
    (row : GameWithRating) (hrow : row ∈ (getGames db params).games) :
    (∀ b, params.minPrice = some b →
      pricesFor db row.game.steam_app_id ≠ [] ∧
      ∃ m, sqlMinQ ((pricesFor db row.game.steam_app_id).map (fun cp => cp.price_usd)) =
        some m ∧ b ≤ m) ∧
    (∀ b, params.maxPrice = some b →
      pricesFor db row.game.steam_app_id ≠ [] ∧
      ∃ m, sqlMinQ ((pricesFor db row.game.steam_app_id).map (fun cp => cp.price_usd)) =
        some m ∧ m ≤ b) ∧
    (∀ b, params.minDiscount = some b →
      pricesFor db row.game.steam_app_id ≠ [] ∧
      ∃ m, sqlMaxZ ((pricesFor db row.game.steam_app_id).map (fun cp => cp.discount_percent)) =
        some m ∧ b ≤ m) := by
  obtain ⟨hhav, g, _, _, hrw⟩ := mem_getGames_games hrow
  subst hrw
  simp only [havingPred, Bool.and_eq_true] at hhav
  obtain ⟨⟨⟨h1, h2⟩, h3⟩, _⟩ := hhav
  simp only [aggregateRow_game]
  refine ⟨?_, ?_, ?_⟩
  · intro b hb
    rw [hb, aggregateRow_min_price] at h1
    cases hmp : sqlMinQ ((pricesFor db g.steam_app_id).map (fun cp => cp.price_usd)) with
    | none => rw [hmp] at h1; simp at h1
    | some m =>
      rw [hmp] at h1
      simp only [decide_eq_true_eq] at h1
      refine ⟨?_, m, rfl, h1⟩
      intro hnil
      rw [hnil] at hmp
      simp [sqlMinQ] at hmp
  · intro b hb
    rw [hb, aggregateRow_min_price] at h2
    cases hmp : sqlMinQ ((pricesFor db g.steam_app_id).map (fun cp => cp.price_usd)) with
    | none => rw [hmp] at h2; simp at h2
    | some m =>
      rw [hmp] at h2
      simp only [decide_eq_true_eq] at h2
      refine ⟨?_, m, rfl, h2⟩
      intro hnil
      rw [hnil] at hmp
      simp [sqlMinQ] at hmp
  · intro b hb
    rw [hb, aggregateRow_max_discount] at h3
    cases hmp : sqlMaxZ ((pricesFor db g.steam_app_id).map (fun cp => cp.discount_percent)) with
    | none => rw [hmp] at h3; simp at h3
    | some m =>
      rw [hmp] at h3
      simp only [decide_eq_true_eq] at h3
      refine ⟨?_, m, rfl, h3⟩
      intro hnil
      rw [hnil] at hmp
      simp [sqlMaxZ] at hmp

/-- C3 witness: a game priced 60 passes the `minPrice = 50` filter and
indeed has a nonempty price set with minimum at least 50. -/
theorem getGames_price_filters_witness :
    aggregateRow exDbC3 (mkGameRow 1 "Alpha") ∈ (getGames exDbC3 exParamsC3).games ∧
    exParamsC3.minPrice = some 50 ∧
    (pricesFor exDbC3 (aggregateRow exDbC3 (mkGameRow 1 "Alpha")).game.steam_app_id ≠ [] ∧
      ∃ m, sqlMinQ ((pricesFor exDbC3
          (aggregateRow exDbC3 (mkGameRow 1 "Alpha")).game.steam_app_id).map
          (fun cp => cp.price_usd)) = some m ∧ (50 : ℚ) ≤ m) :=
  ⟨by decide, rfl,
    (getGames_price_filters exDbC3 exParamsC3 _ (by decide)).1 50 rfl⟩

/-! ### C4 — pagination past the last page -/

/-- The JS ceiling division over-approximates: `a ≤ ⌈a/b⌉ * b`. -/
theorem le_jsCeilDiv_mul (t L : Nat) (hL : 0 < L) : t ≤ jsCeilDiv t L * L := by
  have h : t ≤ L * (t ⌈/⌉ L) := by simpa using le_smul_ceilDiv hL (b := t)
  rw [jsCeilDiv, ← Nat.ceilDiv_eq_add_pred_div, Nat.mul_comm]
  exact h

/-- C4: `getGames` reports `total` as the count of rows matching the
filters before LIMIT/OFFSET, `totalPages = ceil(total / limit)`, and a
page number beyond the last page yields an empty games list rather than
an error. -/
theorem getGames_pagination (db : Db) (params : GamesQueryParams)
    (hlim : 0 < params.limit) :
    (getGames db params).total = (matchingRows db params).length ∧
    (getGames db params).totalPages =
      jsCeilDiv (getGames db params).total params.limit ∧
    ((getGames db params).totalPages < params.page → (getGames db params).games = []) := by
  refine ⟨rfl, rfl, ?_⟩
  intro hpage
  rw [getGames_games_eq]
  have hlen : (orderByList (sortLe params)
      (matchingRows db params)).length = (matchingRows db params).length :=
    (orderByList_perm _ _).length_eq
  have hoff : (matchingRows db params).length ≤ (params.page - 1) * params.limit := by
    have h1 : jsCeilDiv (matchingRows db params).length params.limit < params.page := by
      rw [getGames_totalPages_eq] at hpage
      exact hpage
    have h2 := le_jsCeilDiv_mul (matchingRows db params).length params.limit hlim
    have h3 : jsCeilDiv (matchingRows db params).length params.limit ≤ params.page - 1 := by
      omega
    exact h2.trans (Nat.mul_le_mul_right params.limit h3)
  have hdrop : (orderByList (sortLe params)
      (matchingRows db params)).drop ((params.page - 1) * params.limit) = [] := by
    rw [List.drop_eq_nil_iff, hlen]
    exact hoff
  rw [hdrop, List.take_nil]

/-- C4 witness: one matching game, `limit = 2`, requesting page 5 (past
the single page) returns `games = []` with correct `total`/`totalPages`. -/
theorem getGames_pagination_witness :
    0 < exParamsC4.limit ∧
    (getGames exDbC4 exParamsC4).totalPages < exParamsC4.page ∧
    (getGames exDbC4 exParamsC4).games = [] ∧
    (getGames exDbC4 exParamsC4).total = (matchingRows exDbC4 exParamsC4).length ∧
    (getGames exDbC4 exParamsC4).totalPages =
      jsCeilDiv (getGames exDbC4 exParamsC4).total exParamsC4.limit := by
  have h := getGames_pagination exDbC4 exParamsC4 (by decide)
  exact ⟨by decide, by decide, h.2.2 (by decide), h.1, h.2.1⟩

/-! ### C5 — sorting and the sort-column allow-list -/

/-- The `name` comparison the ORDER BY model uses. -/
theorem columnLe_name (a b : GameWithRating) :
    columnLe "name" a b = decide (a.game.name ≤ b.game.name) := rfl

/-- C5: an unknown `sortBy` silently falls back to sorting by `name`;
with `sortBy = name` the returned page is non-decreasing in name for
`sortOrder = asc` and non-increasing for `desc`. -/
theorem getGames_sorting (db : Db) (params : GamesQueryParams) :
    (params.sortBy ∉ validSortColumns →
      getGames db params = getGames db { params with sortBy := "name" }) ∧
    (params.sortBy = "name" → params.sortOrder = "asc" →
      List.Pairwise (fun a b : GameWithRating => a.game.name ≤ b.game.name)
        (getGames db params).games) ∧
    (params.sortBy = "name" → params.sortOrder = "desc" →
      List.Pairwise (fun a b : GameWithRating => b.game.name ≤ a.game.name)
        (getGames db params).games) := by
  have htrans : ∀ a b c : GameWithRating, columnLe "name" a b = true →
      columnLe "name" b c = true → columnLe "name" a c = true := by
    intro a b c hab hbc
    rw [columnLe_name] at hab hbc ⊢
    simp only [decide_eq_true_eq] at hab hbc ⊢
    exact le_trans hab hbc
  have htot : ∀ a b : GameWithRating,
      columnLe "name" a b = true ∨ columnLe "name" b a = true := by
    intro a b
    rw [columnLe_name, columnLe_name]
    simp only [decide_eq_true_eq]
    exact le_total a.game.name b.game.name
  refine ⟨?_, ?_, ?_⟩
  · intro hjunk
    have hc : validSortColumns.contains params.sortBy = false := by
      simpa using hjunk
    unfold getGames sortLe sortColumnOf
    rw [hc]
    rfl
  · intro hsb hso
    rw [getGames_games_eq]
    have hcol : sortColumnOf params = "name" := by
      unfold sortColumnOf
      rw [hsb]
      exact ite_self "name" 
    have hle : sortLe params = columnLe "name" := by
      unfold sortLe
      rw [hso, hcol]
      rfl
    rw [hle]
    have hpw := orderByList_pairwise htrans htot (matchingRows db params)
    have hsubl := (List.take_sublist params.limit _).trans
      (List.drop_sublist ((params.page - 1) * params.limit)
        (orderByList (columnLe "name") (matchingRows db params)))
    refine (List.Pairwise.sublist hsubl hpw).imp ?_
    intro a b h
    rw [columnLe_name] at h
    simpa using h
  · intro hsb hso
    rw [getGames_games_eq]
    have hcol : sortColumnOf params = "name" := by
      unfold sortColumnOf
      rw [hsb]
      exact ite_self "name" 
    have hle : sortLe params = fun a b => columnLe "name" b a := by
      unfold sortLe
      rw [hso, hcol]
      rfl
    rw [hle]
    have hpw := orderByList_pairwise
      (fun a b c hab hbc => htrans c b a hbc hab)
      (fun a b => (htot b a)) (matchingRows db params)
    have hsubl := (List.take_sublist params.limit _).trans
      (List.drop_sublist ((params.page - 1) * params.limit)
        (orderByList (fun a b => columnLe "name" b a) (matchingRows db params)))
    refine (List.Pairwise.sublist hsubl hpw).imp ?_
    intro a b h
    rw [columnLe_name] at h
    simpa using h

/-- C5 witness: the allow-list fallback fires for `sortBy = "junk"`, and
the `name`-ascending page of a concrete database is sorted. -/
theorem getGames_sorting_witness :
    (exParamsC5junk.sortBy ∉ validSortColumns ∧
      getGames exDbC5 exParamsC5junk =
        getGames exDbC5 { exParamsC5junk with sortBy := "name" }) ∧
    (defaultParams.sortBy = "name" ∧ defaultParams.sortOrder = "asc" ∧
      List.Pairwise (fun a b : GameWithRating => a.game.name ≤ b.game.name)
        (getGames exDbC5 defaultParams).games) :=
  ⟨⟨by decide, (getGames_sorting exDbC5 exParamsC5junk).1 (by decide)⟩,
    rfl, rfl, (getGames_sorting exDbC5 defaultParams).2.1 rfl rfl⟩

/-! ### C7 — the stored discount percent -/

/-- The discount field of the per-deal record. -/
theorem dealToPrice_discount (steamAppId : Nat) (deal : Deal) :
    (dealToPrice steamAppId deal).discount_percent =
      (if 0 < jsOrNum deal.regularAmount deal.priceAmount then
        jsRound ((jsOrNum deal.regularAmount deal.priceAmount - deal.priceAmount) /
          jsOrNum deal.regularAmount deal.priceAmount * 100)
      else 0) := rfl

/-- Every price of a processed batch is a `dealToPrice` record. -/
theorem mem_processPriceBatch {appIds : List (String × Nat)}
    {resp : Except String (List GamePricesEntry)} {pr : Price}
    (h : pr ∈ processPriceBatch appIds resp) :
    ∃ appId deal, pr = dealToPrice appId deal := by
  unfold processPriceBatch at h
  split at h
  · exact absurd h (by simp)
  · obtain ⟨gameData, _, hm⟩ := List.mem_flatMap.mp h
    split at hm
    · split at hm
      · obtain ⟨deal, _, rfl⟩ := List.mem_map.mp hm
        exact ⟨_, deal, rfl⟩
      · exact absurd hm (by simp)
    · exact absurd hm (by simp)

/-- Every price computed by the single-id fetch maps a deal of the
response through `dealToPrice`. -/
theorem mem_fetchGamePricesList {lookupResp : Except String (List (String × Option String))}
    {priceResp : Except String (List GamePricesEntry)} {steamAppId : Nat} {pr : Price} :
    pr ∈ fetchGamePricesList lookupResp priceResp steamAppId →
    ∃ deal, pr = dealToPrice steamAppId deal := by
  unfold fetchGamePricesList
  split
  · intro hpr; exact absurd hpr (by simp)
  · split
    · intro hpr; exact absurd hpr (by simp)
    · split
      · intro hpr; exact absurd hpr (by simp)
      · split
        · intro hpr; exact absurd hpr (by simp)
        · intro hpr
          obtain ⟨deal, _, rfl⟩ := List.mem_map.mp hpr
          exact ⟨deal, rfl⟩

/-- Every price computed by the batched fetch maps a deal of some batch
response through `dealToPrice`. -/
theorem mem_fetchMultipleGamePricesList
    {lookupOracle : Nat → Except String (List (String × Option String))}
    {priceOracle : Nat → Except String (List GamePricesEntry)}
    {steamAppIds : List Nat} {pr : Price} :
    pr ∈ fetchMultipleGamePricesList lookupOracle priceOracle steamAppIds →
    ∃ appId deal, pr = dealToPrice appId deal := by
  unfold fetchMultipleGamePricesList
  split
  · intro hpr; exact absurd hpr (by simp)
  · intro hpr
    obtain ⟨pb, _, hm⟩ := List.mem_flatMap.mp hpr
    exact mem_processPriceBatch hm

/-- C7: the discount stored for a deal carrying a regular price `r`
equals the specification formula `round((r - new) / r * 100)` with 0 for
non-positive `r` (the JS `||` fallback when `r = 0` lands on the same
value), and every record produced by `fetchGamePrices` or
`fetchMultipleGamePrices` is such a `dealToPrice` record. -/
theorem dealDiscount_formula :
    (∀ (steamAppId : Nat) (deal : Deal) (r : ℚ), deal.regularAmount = some r →
      (dealToPrice steamAppId deal).discount_percent =
        discountPercentSpec r deal.priceAmount) ∧
    (∀ (apiKey : Bool) lookupResp priceResp (steamAppId : Nat) prices,
      fetchGamePrices apiKey lookupResp priceResp steamAppId = Except.ok prices →
      ∀ pr ∈ prices, ∃ deal, pr = dealToPrice steamAppId deal) ∧
    (∀ (apiKey : Bool) lookupOracle priceOracle (steamAppIds : List Nat) prices,
      fetchMultipleGamePrices apiKey lookupOracle priceOracle steamAppIds =
        Except.ok prices →
      ∀ pr ∈ prices, ∃ appId deal, pr = dealToPrice appId deal) := by
  refine ⟨?_, ?_, ?_⟩
  · intro steamAppId deal r hr
    have hold : jsOrNum deal.regularAmount deal.priceAmount =
        if r = 0 then deal.priceAmount else r := by
      rw [hr]
      rfl
    rw [dealToPrice_discount, hold]
    by_cases h0 : r = 0
    · rw [if_pos h0]
      subst h0
      unfold discountPercentSpec
      rw [if_neg (lt_irrefl (0 : ℚ))]
      by_cases hp : 0 < deal.priceAmount
      · rw [if_pos hp, sub_self, zero_div, zero_mul]
        unfold jsRound
        norm_num
      · rw [if_neg hp]
    · rw [if_neg h0]
      rfl
  · intro apiKey lookupResp priceResp steamAppId prices h pr hpr
    cases apiKey with
    | false => cases h
    | true =>
      cases h
      exact mem_fetchGamePricesList hpr
  · intro apiKey lookupOracle priceOracle steamAppIds prices h pr hpr
    cases apiKey with
    | false => cases h
    | true =>
      cases h
      exact mem_fetchMultipleGamePricesList hpr

/-- C7 witness: the formula instance for a deal with regular price 10
and current price 5, plus the membership conjuncts discharged on
concrete runs (a failed lookup yields the empty price list). -/
theorem dealDiscount_formula_witness :
    ((dealToPrice 7 exDealC7).discount_percent = discountPercentSpec 10 5) ∧
    (∀ pr ∈ ([] : List Price), ∃ deal, pr = dealToPrice 7 deal) ∧
    (∀ pr ∈ ([] : List Price), ∃ appId deal, pr = dealToPrice appId deal) :=
  ⟨dealDiscount_formula.1 7 exDealC7 10 rfl,
    dealDiscount_formula.2.1 true (Except.error "boom") (Except.error "boom") 7 [] rfl,
    dealDiscount_formula.2.2 true (fun _ => Except.error "boom")
      (fun _ => Except.error "boom") [] [] rfl⟩

/-! ### C8 — idempotent upsert keeps the latest name -/

/-- The bound row keeps the insert's key. -/
theorem boundGameRow_id (g : GameInsert) (now : String) :
    (boundGameRow g now).steam_app_id = g.steam_app_id := rfl

/-- The bound row carries the insert's name verbatim. -/
theorem boundGameRow_name (g : GameInsert) (now : String) :
    (boundGameRow g now).name = g.name := rfl

/-- After an upsert into a table respecting the primary key (at most one
row per id), exactly one row carries the id. -/
theorem countP_upsertGame (games : List GameRow) (g : GameInsert) (now : String)
    (huniq : games.countP (fun r => r.steam_app_id == g.steam_app_id) ≤ 1) :
    (upsertGame games g now).countP (fun r => r.steam_app_id == g.steam_app_id) = 1 := by
  unfold upsertGame
  by_cases hany : games.any (fun r => r.steam_app_id == g.steam_app_id) = true
  · rw [if_pos hany, List.countP_map]
    have hsame : games.countP ((fun r => r.steam_app_id == g.steam_app_id) ∘
        (fun r => if r.steam_app_id == g.steam_app_id then boundGameRow g now else r)) =
        games.countP (fun r => r.steam_app_id == g.steam_app_id) := by
      refine List.countP_congr ?_
      intro r _
      by_cases hid : (r.steam_app_id == g.steam_app_id) = true
      · simp [Function.comp, hid, boundGameRow_id]
      · simp [Function.comp, hid]
    rw [hsame]
    have hpos : 0 < games.countP (fun r => r.steam_app_id == g.steam_app_id) :=
      List.countP_pos_iff.mpr (List.any_eq_true.mp hany)
    omega
  · rw [if_neg hany, List.countP_append]
    have h0 : games.countP (fun r => r.steam_app_id == g.steam_app_id) = 0 := by
      rw [List.countP_eq_zero]
      intro a ha hpa
      exact hany (List.any_eq_true.mpr ⟨a, ha, hpa⟩)
    rw [h0]
    simp [boundGameRow_id]

/-- After an upsert, every row carrying the upserted id has its name. -/
theorem name_upsertGame (games : List GameRow) (g : GameInsert) (now : String) :
    ∀ r ∈ upsertGame games g now, r.steam_app_id = g.steam_app_id → r.name = g.name := by
  intro r hr hrid
  unfold upsertGame at hr
  by_cases hany : games.any (fun r => r.steam_app_id == g.steam_app_id) = true
  · rw [if_pos hany] at hr
    obtain ⟨r0, hr0, rfl⟩ := List.mem_map.mp hr
    by_cases hid : (r0.steam_app_id == g.steam_app_id) = true
    · rw [if_pos hid]
      exact boundGameRow_name g now
    · rw [if_neg hid] at hrid ⊢
      exact absurd (beq_iff_eq.mpr hrid) hid
  · rw [if_neg hany] at hr
    rcases List.mem_append.mp hr with hmem | hmem
    · refine absurd (List.any_eq_true.mpr ⟨r, hmem, ?_⟩) hany
      exact beq_iff_eq.mpr hrid
    · rw [List.mem_singleton.mp hmem]
      exact boundGameRow_name g now

/-- C8: upserting the same id twice with different names leaves exactly
one row for that id, and it carries the second (latest) name. -/
theorem upsertGame_twice_latest_name (games : List GameRow) (g1 g2 : GameInsert)
    (now1 now2 : String) (hid : g1.steam_app_id = g2.steam_app_id)
    (huniq : games.countP (fun r => r.steam_app_id == g2.steam_app_id) ≤ 1) :
    ((upsertGame (upsertGame games g1 now1) g2 now2).countP
      (fun r => r.steam_app_id == g2.steam_app_id) = 1) ∧
    (∀ r ∈ upsertGame (upsertGame games g1 now1) g2 now2,
      r.steam_app_id = g2.steam_app_id → r.name = g2.name) := by
  have huniq1 : (upsertGame games g1 now1).countP
      (fun r => r.steam_app_id == g2.steam_app_id) ≤ 1 := by
    rw [← hid] at huniq ⊢
    exact le_of_eq (countP_upsertGame games g1 now1 huniq)
  refine ⟨?_, name_upsertGame _ g2 now2⟩
  exact countP_upsertGame _ g2 now2 huniq1

/-- C8 witness: inserting id 1 as "Alpha" then upserting id 1 as "Beta"
leaves one row for id 1 named "Beta". -/
theorem upsertGame_twice_latest_name_witness :
    exInsertA.steam_app_id = exInsertB.steam_app_id ∧
    ([] : List GameRow).countP (fun r => r.steam_app_id == exInsertB.steam_app_id) ≤ 1 ∧
    ((upsertGame (upsertGame [] exInsertA "t1") exInsertB "t2").countP
      (fun r => r.steam_app_id == exInsertB.steam_app_id) = 1) ∧
    (∀ r ∈ upsertGame (upsertGame [] exInsertA "t1") exInsertB "t2",
      r.steam_app_id = exInsertB.steam_app_id → r.name = exInsertB.name) := by
  have h := upsertGame_twice_latest_name [] exInsertA exInsertB "t1" "t2" rfl
    (by decide)
  exact ⟨rfl, by decide, h.1, h.2⟩

/-! ### C9 — duplicate column names in getGameById -/

/-- The detail object returned when the games row exists: the duplicated
column names carry the rating side's values. -/
theorem getGameById_eq_some {db : Db} {id : Nat} {g : GameRow}
    (hf : db.games.find? (fun x => x.steam_app_id == id) = some g) :
    getGameById db id = some
      { steam_app_id := (ratingFor db id).map (fun r => r.steam_app_id)
        name := g.name
        short_description := g.short_description
        header_image_url := g.header_image_url
        steam_url := g.steam_url
        release_date := g.release_date
        developers := g.developers
        publishers := g.publishers
        genres := g.genres
        tags := g.tags
        is_free := g.is_free
        last_updated := (ratingFor db id).bind (fun r => r.last_updated)
        tier := (ratingFor db id).map (fun r => r.tier)
        confidence := (ratingFor db id).bind (fun r => r.confidence)
        score := (ratingFor db id).bind (fun r => r.score)
        total_reports := (ratingFor db id).bind (fun r => r.total_reports)
        trending_tier := (ratingFor db id).bind (fun r => r.trending_tier)
        current_prices := pricesFor db id
        humble_bundles := bundlesFor db id } := by
  unfold getGameById
  rw [hf]

/-- `getGameById` returns null exactly on a missing games row. -/
theorem getGameById_eq_none {db : Db} {id : Nat}
    (hf : db.games.find? (fun x => x.steam_app_id == id) = none) :
    getGameById db id = none := by
  unfold getGameById
  rw [hf]

/-- C9: for a game that exists but has no protondb_ratings row, the
detail query returns a non-null object whose `steam_app_id` (and
`last_updated`) come out NULL — the `p.*` columns of the LEFT JOIN
overwrite the equally-named `g.*` columns in the driver's row object —
while the route's 404-vs-detail decision still depends only on the
games row's existence. -/
theorem getGameById_rating_overwrite (db : Db) (id : Nat) :
    (db.games.find? (fun x => x.steam_app_id == id) ≠ none →
      ratingFor db id = none →
      ∃ detail, getGameById db id = some detail ∧ detail.steam_app_id = none ∧
        detail.last_updated = none ∧ getGameByIdRoute db id = ApiResponse.ok detail) ∧
    (getGameByIdRoute db id = ApiResponse.notFound ↔
      db.games.find? (fun x => x.steam_app_id == id) = none) := by
  constructor
  · intro hne hnr
    obtain ⟨g, hf⟩ : ∃ g, db.games.find? (fun x => x.steam_app_id == id) = some g := by
      cases hf : db.games.find? (fun x => x.steam_app_id == id) with
      | none => exact absurd hf hne
      | some g => exact ⟨g, rfl⟩
    refine ⟨_, getGameById_eq_some hf, ?_, ?_, ?_⟩
    · rw [hnr]
      rfl
    · rw [hnr]
      rfl
    · unfold getGameByIdRoute
      rw [getGameById_eq_some hf]
  · constructor
    · intro hroute
      cases hf : db.games.find? (fun x => x.steam_app_id == id) with
      | none => rfl
      | some g =>
        rw [show getGameByIdRoute db id = ApiResponse.ok _ from by
          unfold getGameByIdRoute
          rw [getGameById_eq_some hf]] at hroute
        cases hroute
    · intro hf
      unfold getGameByIdRoute
      rw [getGameById_eq_none hf]

/-- C9 witness: a database holding game 7 and no ratings; the detail
object exists with NULL `steam_app_id`, and 404 is not taken. -/
theorem getGameById_rating_overwrite_witness :
    exDbC9.games.find? (fun x => x.steam_app_id == 7) ≠ none ∧
    ratingFor exDbC9 7 = none ∧
    (∃ detail, getGameById exDbC9 7 = some detail ∧ detail.steam_app_id = none ∧
      detail.last_updated = none ∧ getGameByIdRoute exDbC9 7 = ApiResponse.ok detail) ∧
    (getGameByIdRoute exDbC9 7 = ApiResponse.notFound ↔
      exDbC9.games.find? (fun x => x.steam_app_id == 7) = none) :=
  ⟨by decide, rfl, (getGameById_rating_overwrite exDbC9 7).1 (by decide) rfl,
    (getGameById_rating_overwrite exDbC9 7).2⟩

/-! ### C6 — rate-limit retries of fetchAppDetails

The claim asserts recursion depth one ("at most one rate-limit retry per
original call").  The code's catch block recurses on every message
containing "429" with no retry budget, so the depth equals the number of
consecutive 429 responses: the claim fails at any upstream that
rate-limits twice. -/

/-- The recursion sleeps and retries once per leading 429 response. -/
theorem fetchAppDetailsGo_429
    (upstream : Nat → Except String (Option SteamAppDetailsEntry))
    (steamAppId : Nat) :
    ∀ (k fuel attempt : Nat),
      k < fuel →
      (∀ j, j < k → ∃ msg, upstream (attempt + j) = Except.error msg ∧
        strIncludes msg "429" = true) →
      (match upstream (attempt + k) with
       | Except.ok _ => True
       | Except.error msg => strIncludes msg "429" = false) →
      fetchAppDetailsGo upstream steamAppId fuel attempt =
        { result := some (match upstream (attempt + k) with
            | Except.ok entry => parseAppDetails steamAppId entry
            | Except.error _ => none)
          retries := attempt + k
          sleeps := List.replicate k 60000 } := by
  intro k
  induction k with
  | zero =>
    intro fuel attempt hk _ hstop
    obtain ⟨f, rfl⟩ : ∃ f, fuel = f + 1 := ⟨fuel - 1, by omega⟩
    show fetchAppDetailsGo upstream steamAppId (f + 1) attempt = _
    rw [fetchAppDetailsGo]
    simp only [Nat.add_zero] at hstop ⊢
    cases hu : upstream attempt with
    | ok entry => rfl
    | error msg =>
      rw [hu] at hstop
      replace hstop : strIncludes msg "429" = false := hstop
      simp [hstop]
  | succ k ihk =>
    intro fuel attempt hk h429 hstop
    obtain ⟨f, rfl⟩ : ∃ f, fuel = f + 1 := ⟨fuel - 1, by omega⟩
    obtain ⟨msg, hmsg, hincl⟩ := h429 0 (by omega)
    have hmsg' : upstream attempt = Except.error msg := by simpa using hmsg
    have hrec := ihk f (attempt + 1) (by omega)
      (fun j hj => by
        obtain ⟨m, hm, hi⟩ := h429 (j + 1) (by omega)
        exact ⟨m, by rw [show attempt + 1 + j = attempt + (j + 1) from by omega]; exact hm, hi⟩)
      (by rw [show attempt + 1 + k = attempt + (k + 1) from by omega]; exact hstop)
    rw [fetchAppDetailsGo, hmsg']
    simp only [hincl, eq_self_iff_true, if_true]
    rw [hrec]
    simp only [AppDetailsRun.mk.injEq]
    refine ⟨?_, by omega, ?_⟩
    · rw [show attempt + 1 + k = attempt + (k + 1) from by omega]
    · rw [List.replicate_succ]

/-- C6 (amended): on each upstream 429 response `fetchAppDetails` sleeps
the fixed 60000 ms cooldown and recursively retries the same id, with no
depth bound: with `k` consecutive 429 responses it performs exactly `k`
retries and `k` sleeps — one retry per 429, not at most one per original
call — and then returns the handler's value for the first non-429
outcome. -/
theorem fetchAppDetails_429_retries
    (upstream : Nat → Except String (Option SteamAppDetailsEntry))
    (steamAppId k fuel : Nat) (hfuel : k < fuel)
    (h429 : ∀ j, j < k → ∃ msg, upstream j = Except.error msg ∧
      strIncludes msg "429" = true)
    (hstop : match upstream k with
      | Except.ok _ => True
      | Except.error msg => strIncludes msg "429" = false) :
    fetchAppDetails upstream steamAppId fuel =
      { result := some (match upstream k with
          | Except.ok entry => parseAppDetails steamAppId entry
          | Except.error _ => none)
        retries := k
        sleeps := List.replicate k 60000 } := by
  have h := fetchAppDetailsGo_429 upstream steamAppId k fuel 0 hfuel
    (fun j hj => by simpa using h429 j hj) (by simpa using hstop)
  simpa [fetchAppDetails] using h

/-- C6 counterexample: an upstream answering 429 twice then succeeding
drives two sleep-and-retry passes — the "at most one rate-limit retry
per original call" reading of the claim is false on the code. -/
theorem fetchAppDetails_singleRetry_counterexample :
    (fetchAppDetails ex429upstream 570 10).retries = 2 ∧
    ¬ ((fetchAppDetails ex429upstream 570 10).retries ≤ 1) ∧
    (fetchAppDetails ex429upstream 570 10).sleeps = [60000, 60000] :=
  ⟨by decide, by decide, by decide⟩

/-- C6 witness: the amended count - exactly one retry per leading 429
response - instantiated on the twice-rate-limited upstream. -/
theorem fetchAppDetails_429_retries_witness :
    fetchAppDetails ex429upstream 570 10 =
      { result := some none, retries := 2, sleeps := List.replicate 2 60000 } :=
  fetchAppDetails_429_retries ex429upstream 570 2 10 (by decide)
    (fun j hj => ⟨"HTTP 429: Too Many Requests", if_pos hj, by decide⟩)
    (by trivial)

/-! ### C10 — syncAllPrices failure reporting

The claim says `failed = 0` is always returned AND the 'itad' sync-log
row is upserted with status 'success' unconditionally.  The second half
fails on an empty games table: `syncAllPrices` then returns early
without touching the log.  The amended statement keeps the zero failure
count and scopes the unconditional log write to runs that selected at
least one game. -/

/-- The sync-log upsert leaves a row for the source with the written
status. -/
theorem mem_upsertSyncLog (log : List SyncLogRow) (source now status : String)
    (count : Nat) :
    ∃ row ∈ upsertSyncLog log source now status count,
      row.source = source ∧ row.status = some status := by
  unfold upsertSyncLog
  by_cases hany : log.any (fun r => r.source == source) = true
  · rw [if_pos hany]
    obtain ⟨r, hr, hrs⟩ := List.any_eq_true.mp hany
    refine ⟨{ r with
        last_sync_at := now
        status := some status
        records_updated := count }, ?_, beq_iff_eq.mp hrs, rfl⟩
    refine List.mem_map.mpr ⟨r, hr, ?_⟩
    rw [if_pos hrs]
  · rw [if_neg hany]
    refine ⟨_, List.mem_append_right log (List.mem_singleton.mpr rfl), rfl, rfl⟩

/-- C10 (amended): with the API key configured, `syncAllPrices` always
returns `failed = 0`; with zero selected games it returns immediately
and leaves the database (and its sync log) untouched, and with at least
one selected game it upserts the 'itad' log row with status 'success'
regardless of upstream or storage failures. -/
theorem syncAllPrices_failed_zero_and_log (db : Db)
    (lookupOracle : Nat → Except String (List (String × Option String)))
    (priceOracle : Nat → Except String (List GamePricesEntry))
    (storeOk : Bool) (limit : Option Nat) (now : String) :
    (syncSelectedGames db limit = [] →
      syncAllPrices db true lookupOracle priceOracle storeOk limit now =
        Except.ok ({ success := 0, failed := 0, skipped := 0, duration := 0 }, db)) ∧
    (syncSelectedGames db limit ≠ [] →
      ∃ res db1,
        syncAllPrices db true lookupOracle priceOracle storeOk limit now =
          Except.ok (res, db1) ∧
        res.failed = 0 ∧
        db1.data_sync_log =
          upsertSyncLog db.data_sync_log "itad" now "success" res.success ∧
        ∃ row ∈ db1.data_sync_log, row.source = "itad" ∧ row.status = some "success") := by
  constructor
  · intro h
    unfold syncAllPrices
    rw [h]
    rfl
  · intro h
    unfold syncAllPrices
    have hcond : ¬ (syncSelectedGames db limit).length = 0 := by
      simpa [List.length_eq_zero] using h
    rw [if_neg hcond]
    refine ⟨_, _, rfl, rfl, rfl, ?_⟩
    exact mem_upsertSyncLog db.data_sync_log "itad" now "success" _

/-- C10 counterexample: on an empty games table the sync returns
`failed = 0` but writes no 'itad' sync-log row at all — the log upsert
is not unconditional. -/
theorem syncAllPrices_empty_no_log_counterexample :
    syncAllPrices exDbC10empty true failingLookupOracle failingPriceOracle
        true none "t0" =
      Except.ok ({ success := 0, failed := 0, skipped := 0, duration := 0 },
        exDbC10empty) ∧
    exDbC10empty.data_sync_log.any (fun row => row.source == "itad") = false :=
  ⟨rfl, rfl⟩

/-- C10 witness: with one game and every upstream request failing, the
run still reports `failed = 0` and upserts the 'itad' success row. -/
theorem syncAllPrices_failed_zero_and_log_witness :
    syncSelectedGames exDbC10one none ≠ [] ∧
    (∃ res db1,
      syncAllPrices exDbC10one true failingLookupOracle failingPriceOracle
          true none "t1" =
        Except.ok (res, db1) ∧
      res.failed = 0 ∧
      db1.data_sync_log =
        upsertSyncLog exDbC10one.data_sync_log "itad" "t1" "success" res.success ∧
      ∃ row ∈ db1.data_sync_log, row.source = "itad" ∧ row.status = some "success") :=
  ⟨by decide,
    (syncAllPrices_failed_zero_and_log exDbC10one failingLookupOracle
      failingPriceOracle true none "t1").2 (by decide)⟩

end Deckworthy
